import Mathlib

set_option maxHeartbeats 1000000
set_option maxRecDepth 100000

/-!
Shallow embedding of the PTT address scraper (`.github/scripts/scrape_ptt.py`).

Python strings are modelled as `List Char`.  The handful of regular
expressions used by the script are modelled by explicit scanning functions
whose leftmost-match / backtracking behaviour follows the `re` module; each
such function carries a doc comment naming the pattern it models.  The HTTP
session is modelled as an abstract stateful `Server`; `raise`s are modelled
with `Except`, and skipped steps with `Option`.
-/

abbrev Str := List Char

/-- Python whitespace class (its ASCII part), as used by `str.strip`,
`str.split` and the `\s` regex class in this script's data. -/
def isSpace (c : Char) : Bool :=
  decide (c = ' ' ∨ c = '\t' ∨ c = '\n' ∨ c = '\x0b' ∨ c = '\x0c' ∨ c = '\r')

/-- The `\d` regex class, restricted to ASCII digits (the PTT pages carry
only ASCII digits in option values and postal codes). -/
def isDigit (c : Char) : Bool := decide ('0' ≤ c ∧ c ≤ '9')

/-- Characters kept by `clean_id`: the class `[a-zA-Z0-9_]`. -/
def isIdChar (c : Char) : Bool :=
  decide (('a' ≤ c ∧ c ≤ 'z') ∨ ('A' ≤ c ∧ c ≤ 'Z') ∨ ('0' ≤ c ∧ c ≤ '9') ∨ c = '_')

/-- The fixed substitution table `TURKISH_LOWERCASE` of the scraper. -/
def TURKISH_LOWERCASE : List (Char × Char) :=
  [('İ', 'i'), ('I', 'ı'), ('Ğ', 'ğ'), ('Ş', 'ş'), ('Ç', 'ç'), ('Ö', 'ö'), ('Ü', 'ü')]

/-- Model of Python `str.lower()` on one character, restricted to the
character ranges occurring in this data: ASCII letters, the Latin-1
uppercase letters (`×` excepted), and the two extra Turkish uppercase
letters `Ğ`/`Ş`; every other character is returned unchanged.  As in
CPython, `İ` (U+0130) lowers to `i` followed by a combining dot above. -/
def pyLowerChar (c : Char) : Str :=
  if 'A' ≤ c ∧ c ≤ 'Z' then [Char.ofNat (c.toNat + 32)]
  else if c = 'İ' then ['i', Char.ofNat 0x307]
  else if ('À' ≤ c ∧ c ≤ 'Þ') ∧ c ≠ '×' then [Char.ofNat (c.toNat + 32)]
  else if c = 'Ğ' then ['ğ']
  else if c = 'Ş' then ['ş']
  else [c]

/-- The inner character loop of `capitalize_first_letter`: each character of
the word's tail is sent through `TURKISH_LOWERCASE` when listed there and
through generic lower-casing otherwise. -/
def lowerRest : Str → Str
  | [] => []
  | c :: cs =>
    (match TURKISH_LOWERCASE.lookup c with
     | some l => [l]
     | none => pyLowerChar c) ++ lowerRest cs

/-- Python `str.strip()`: drop leading and trailing whitespace. -/
def pyStrip (s : Str) : Str :=
  ((s.dropWhile isSpace).reverse.dropWhile isSpace).reverse

/-- Worker for `pySplit`; the accumulator holds the current word reversed. -/
def pySplitAux : Str → Str → List Str
  | acc, [] => if acc = [] then [] else [acc.reverse]
  | acc, c :: rest =>
    if isSpace c then
      if acc = [] then pySplitAux [] rest else acc.reverse :: pySplitAux [] rest
    else pySplitAux (c :: acc) rest

/-- Python `str.split()` with no argument: split on whitespace runs,
discarding empty pieces. -/
def pySplit (s : Str) : List Str := pySplitAux [] s

/-- Python `' '.join`. -/
def joinSpace : List Str → Str
  | [] => []
  | [w] => w
  | w :: ws => w ++ ' ' :: joinSpace ws

/-- The word loop of `capitalize_first_letter`: keep each word's first
character, lower-case the remainder with `lowerRest`; empty words are
skipped (`if not word: continue`). -/
def capWords : List Str → List Str
  | [] => []
  | [] :: ws => capWords ws
  | (c :: rest) :: ws => (c :: lowerRest rest) :: capWords ws

/-- `capitalize_first_letter` from the source: `text.strip().split()`, then
per word first-character preserved and remainder lower-cased, joined by
single spaces. -/
def capitalize_first_letter (text : Str) : Str :=
  joinSpace (capWords (pySplit (pyStrip text)))

/-- Worker for `collapseWS`; the flag records whether the previous character
belonged to a whitespace run already replaced by one space. -/
def collapseWSAux : Bool → Str → Str
  | _, [] => []
  | inRun, c :: rest =>
    if isSpace c then
      if inRun then collapseWSAux true rest else ' ' :: collapseWSAux true rest
    else c :: collapseWSAux false rest

/-- Model of `re.sub(r'\s+', ' ', text)`: every whitespace run becomes one
space. -/
def collapseWS (s : Str) : Str := collapseWSAux false s

/-- Worker for `htmlUnescape`.  The fuel argument only forces structural
termination: every step consumes at least one character and one unit of
fuel, so the initial fuel `s.length` is never exhausted. -/
def htmlUnescapeGo : Nat → Str → Str
  | 0, s => s
  | _, [] => []
  | fuel + 1, c :: rest =>
    if ("&amp;".toList).isPrefixOf (c :: rest) then
      '&' :: htmlUnescapeGo fuel ((c :: rest).drop 5)
    else if ("&lt;".toList).isPrefixOf (c :: rest) then
      '<' :: htmlUnescapeGo fuel ((c :: rest).drop 4)
    else if ("&gt;".toList).isPrefixOf (c :: rest) then
      '>' :: htmlUnescapeGo fuel ((c :: rest).drop 4)
    else if ("&quot;".toList).isPrefixOf (c :: rest) then
      '"' :: htmlUnescapeGo fuel ((c :: rest).drop 6)
    else if ("&#39;".toList).isPrefixOf (c :: rest) then
      '\'' :: htmlUnescapeGo fuel ((c :: rest).drop 5)
    else c :: htmlUnescapeGo fuel rest

/-- Model of Python `html.unescape` restricted to the five standard XML
entities; all other text passes through unchanged.  (The scraped option
labels use no other entity forms; no claim quantifies over entity
decoding.) -/
def htmlUnescape (s : Str) : Str := htmlUnescapeGo s.length s

/-- `clean_text` from the source: decode entities, strip, collapse
whitespace, then Turkish-aware title-casing. -/
def clean_text (text : Str) : Str :=
  capitalize_first_letter (collapseWS (pyStrip (htmlUnescape text)))

/-- First replacement step of `clean_id`: backslash and slash become
underscore. -/
def slashToUnderscore (c : Char) : Char :=
  if c = '\\' ∨ c = '/' then '_' else c

/-- `clean_id` from the source: replace `\` and `/` by `_`, then delete
every character outside `[a-zA-Z0-9_]` (the `re.sub` with an empty
replacement). -/
def clean_id (id_str : Str) : Str :=
  (id_str.map slashToUnderscore).filter isIdChar

/-- First occurrence split: `hay = pre ++ needle ++ post` at the leftmost
occurrence of `needle`, returning `(pre, post)`. -/
def splitFirst (needle : Str) : Str → Option (Str × Str)
  | [] => if needle = [] then some ([], []) else none
  | c :: rest =>
    if needle.isPrefixOf (c :: rest) then some ([], (c :: rest).drop needle.length)
    else
      match splitFirst needle rest with
      | some (pre, post) => some (c :: pre, post)
      | none => none

/-- Model of `re.search(marker + '([^"]+)"', html)` for a literal `marker`:
scan for an occurrence of `marker` followed by a nonempty quote-free run and
a closing quote, returning the captured run; later occurrences are tried
when an earlier one is not followed by a valid capture, exactly as the
backtracking regex engine does. -/
def extractAttr (marker : Str) : Str → Option Str
  | [] => none
  | c :: rest =>
    if marker.isPrefixOf (c :: rest) then
      if ((c :: rest).drop marker.length).takeWhile (fun x => decide (x ≠ '"')) ≠ [] ∧
         (((c :: rest).drop marker.length).takeWhile (fun x => decide (x ≠ '"'))).length <
           ((c :: rest).drop marker.length).length then
        some (((c :: rest).drop marker.length).takeWhile (fun x => decide (x ≠ '"')))
      else extractAttr marker rest
    else extractAttr marker rest

def closeSelect : Str := "</select>".toList

/-- Tail part of the dropdown-block regex `.*?>(.*?)</select>` (with
`re.DOTALL`): for each `>` in scan order, capture up to the first following
`</select>`; if none follows, backtrack to the next `>`. -/
def findGtThenClose : Str → Option Str
  | [] => none
  | c :: rest =>
    if c = '>' then
      match splitFirst closeSelect rest with
      | some (grp, _) => some grp
      | none => findGtThenClose rest
    else findGtThenClose rest

/-- Model of `re.search(anchor + '.*?>(.*?)</select>', html, re.DOTALL)`:
try every occurrence of the literal `anchor` left to right, completing the
match with `findGtThenClose`. -/
def extractBlock (anchor : Str) : Str → Option Str
  | [] => none
  | c :: rest =>
    if anchor.isPrefixOf (c :: rest) then
      match findGtThenClose ((c :: rest).drop anchor.length) with
      | some grp => some grp
      | none => extractBlock anchor rest
    else extractBlock anchor rest

def optOpen : Str := "<option value=\"".toList
def optMid : Str := "\">".toList
def optClose : Str := "</option>".toList

/-- One attempted match of `<option value="(VALUE)">([^<]+)</option>` at the
start of `s`, where `VALUE` is a nonempty maximal run of characters
satisfying `vp` (`\d` for provinces/districts, `[^"]` for neighborhoods).
Returns the two captures and the rest of the input after the match. -/
def matchOption (vp : Char → Bool) (s : Str) : Option ((Str × Str) × Str) :=
  if optOpen.isPrefixOf s then
    let t1 := s.drop optOpen.length
    let v := t1.takeWhile vp
    let t2 := t1.drop v.length
    if v ≠ [] ∧ optMid.isPrefixOf t2 then
      let t3 := t2.drop optMid.length
      let lbl := t3.takeWhile (fun x => decide (x ≠ '<'))
      let t4 := t3.drop lbl.length
      if lbl ≠ [] ∧ optClose.isPrefixOf t4 then some ((v, lbl), t4.drop optClose.length)
      else none
    else none
  else none

/-- Worker for `parseOptionsBy`.  The fuel argument only forces structural
termination: a failed start consumes one character, a successful match
consumes at least the whole match (`matchOption` only succeeds past
`optOpen`), so the initial fuel `s.length` is never exhausted. -/
def parseOptionsGo (vp : Char → Bool) : Nat → Str → List (Str × Str)
  | 0, _ => []
  | _, [] => []
  | fuel + 1, c :: rest =>
    match matchOption vp (c :: rest) with
    | some pr => pr.1 :: parseOptionsGo vp fuel pr.2
    | none => parseOptionsGo vp fuel rest

/-- Model of `re.findall` with the option pattern: non-overlapping matches
left to right; after a failed start the scan advances one character, after a
successful match it resumes right after the match. -/
def parseOptionsBy (vp : Char → Bool) (s : Str) : List (Str × Str) :=
  parseOptionsGo vp s.length s

def ddl1Anchor : Str := "MainContent_DropDownList1\"".toList
def ddl2Anchor : Str := "MainContent_DropDownList2\"".toList
def ddl3Anchor : Str := "MainContent_DropDownList3\"".toList

/-- `get_provinces` from the source: find the province dropdown block or
raise; extract `(\d+)`-valued options; filter out the placeholder `-1`. -/
def get_provinces (html : Str) : Except Str (List (Str × Str)) :=
  match extractBlock ddl1Anchor html with
  | none => .error ("İl listesi bulunamadı".toList)
  | some block =>
    .ok ((parseOptionsBy isDigit block).filter (fun p => decide (p.1 ≠ "-1".toList)))

/-- `get_districts` from the source: as `get_provinces` but on the district
dropdown, returning `[]` when the block is absent.  `province_id` is unused
by the source body as well. -/
def get_districts (province_id : Str) (html : Str) : List (Str × Str) :=
  match extractBlock ddl2Anchor html with
  | none => []
  | some block =>
    (parseOptionsBy isDigit block).filter (fun p => decide (p.1 ≠ "-1".toList))

def vsMarker : Str := "__VIEWSTATE\" value=\"".toList
def evMarker : Str := "__EVENTVALIDATION\" value=\"".toList

/-- `extract_viewstate_and_validation` from the source. -/
def extract_viewstate_and_validation (html : Str) : Option Str × Option Str :=
  (extractAttr vsMarker html, extractAttr evMarker html)

structure Mahalle where
  mahalle_id : Str
  mahalle_adi : Str
  posta_kodu : Option Str
deriving DecidableEq, Repr

structure Ilce where
  ilce_id : Str
  ilce_adi : Str
  mahalleler : List Mahalle
deriving DecidableEq, Repr

structure Il where
  il_id : Str
  il_adi : Str
  ilceler : List Ilce
deriving DecidableEq, Repr

/-- Form fields are modelled as key/value pairs; a `none` value corresponds
to posting a Python `None` (possible for the tokens after the first
province iteration). -/
abbrev FormData := List (Str × Option Str)

/-- The HTTP session, abstracted: a stateful server answering the initial
GET and each form POST with response body text.  `σ` is the server/session
state (cookies, ASP.NET state, call history...). -/
structure Server (σ : Type) where
  get : σ → σ × Str
  post : σ → FormData → σ × Str

/-- A `\d{5}` window starts at the head of `s`. -/
def digitWindow5 (s : Str) : Bool :=
  decide ((s.take 5).length = 5 ∧ ∀ x ∈ s.take 5, isDigit x = true)

/-- Model of `re.search(r'(\d{5})', s)`: the leftmost run of five
consecutive digits, if any. -/
def find5digits : Str → Option Str
  | [] => none
  | c :: rest =>
    if digitWindow5 (c :: rest) then some ((c :: rest).take 5)
    else find5digits rest

/-- Drop the trailing whitespace run. -/
def stripTrailingWS (s : Str) : Str := (s.reverse.dropWhile isSpace).reverse

/-- Model of `re.sub(r'\s*/\s*.*$', '', s)` for newline-free `s` (which
`clean_text` guarantees, having collapsed all whitespace to single spaces):
if `s` contains `/`, keep only the part before the first `/`, with the
whitespace run immediately preceding it removed; otherwise `s` is
unchanged. -/
def dropAfterSlash (s : Str) : Str :=
  if '/' ∈ s then stripTrailingWS (s.takeWhile (fun c => decide (c ≠ '/')))
  else s

/-- The per-option record construction of `get_neighborhoods`: clean the
label, take the leftmost 5-digit run of the cleaned label as the postal
code, truncate the label at the first `/`, and clean the raw id. -/
def mkMahalle (neighborhood_id neighborhood_name : Str) : Mahalle :=
  { mahalle_id := clean_id neighborhood_id
    mahalle_adi := dropAfterSlash (clean_text neighborhood_name)
    posta_kodu := find5digits (clean_text neighborhood_name) }

/-- The form dict posted by `get_neighborhoods`. -/
def neighborhoodFormData (viewstate eventvalidation province_id district_id : Str) : FormData :=
  [("__EVENTTARGET".toList, some ("ctl00$MainContent$DropDownList2".toList)),
   ("__EVENTARGUMENT".toList, some []),
   ("__VIEWSTATE".toList, some viewstate),
   ("__EVENTVALIDATION".toList, some eventvalidation),
   ("ctl00$MainContent$DropDownList1".toList, some province_id),
   ("ctl00$MainContent$DropDownList2".toList, some district_id)]

/-- `get_neighborhoods` from the source: extract the tokens from the given
district page; if either is missing return `[]` without posting; otherwise
post the selection, find the neighborhood dropdown block (or return `[]`),
parse its `([^"]+)`-valued options, drop the `-1` placeholder and build the
records. -/
def get_neighborhoods {σ : Type} (srv : Server σ) (s : σ)
    (province_id district_id district_html : Str) : σ × List Mahalle :=
  match extract_viewstate_and_validation district_html with
  | (some viewstate, some eventvalidation) =>
    let pr := srv.post s (neighborhoodFormData viewstate eventvalidation province_id district_id)
    match extractBlock ddl3Anchor pr.2 with
    | none => (pr.1, [])
    | some block =>
      (pr.1,
        ((parseOptionsBy (fun c => decide (c ≠ '"')) block).filter
            (fun p => decide (p.1 ≠ "-1".toList))).map (fun p => mkMahalle p.1 p.2))
  | _ => (s, [])

/-- The form dict posted per province by `scrape` (tokens may be `None`
after the first iteration, since they are re-extracted from each district
page without a check). -/
def districtFormData (viewstate eventvalidation : Option Str) (province_id : Str) : FormData :=
  [("__EVENTTARGET".toList, some ("ctl00$MainContent$DropDownList1".toList)),
   ("__EVENTARGUMENT".toList, some []),
   ("__VIEWSTATE".toList, viewstate),
   ("__EVENTVALIDATION".toList, eventvalidation),
   ("ctl00$MainContent$DropDownList1".toList, some province_id)]

/-- The accumulation step of `scrape`: append the current province record,
except that when the last entry already carries the same `il_id` it is
replaced instead. -/
def updateAddressData (address_data : List Il) (cur : Il) : List Il :=
  match address_data.getLast? with
  | none => [cur]
  | some lastIl =>
    if lastIl.il_id = cur.il_id then address_data.dropLast ++ [cur]
    else address_data ++ [cur]

/-- The body of `scrape`'s district loop: fetch the district's
neighborhoods (passing the province-level `district_html`), extend the
current province record, and merge it into the accumulated list. -/
def districtStep {σ : Type} (srv : Server σ) (province_id district_html : Str)
    (acc : σ × Il × List Il) (d : Str × Str) : σ × Il × List Il :=
  let r := get_neighborhoods srv acc.1 province_id d.1 district_html
  let cur : Il :=
    { acc.2.1 with
      ilceler := acc.2.1.ilceler ++
        [{ ilce_id := d.1, ilce_adi := clean_text d.2, mahalleler := r.2 }] }
  (r.1, cur, updateAddressData acc.2.2 cur)

/-- The body of `scrape`'s province loop: post the province selection, keep
its response as the district page for the whole province, re-extract the
tokens from it for the next province, parse the districts and run the
district loop. -/
def provinceStep {σ : Type} (srv : Server σ)
    (acc : σ × List Il × Option Str × Option Str) (prov : Str × Str) :
    σ × List Il × Option Str × Option Str :=
  let pr := srv.post acc.1 (districtFormData acc.2.2.1 acc.2.2.2 prov.1)
  let toks := extract_viewstate_and_validation pr.2
  let districts := get_districts prov.1 pr.2
  let cur0 : Il := { il_id := prov.1, il_adi := clean_text prov.2, ilceler := [] }
  let r := districts.foldl (districtStep srv prov.1 pr.2) (pr.1, cur0, acc.2.1)
  (r.1, r.2.2, toks.1, toks.2)

/-- `scrape` from the source: GET the root page, parse the provinces
(raising when the dropdown is absent), check the initial tokens (raising
when either is absent), then fold the province loop.  Returns the final
session state together with the accumulated address list. -/
def scrape {σ : Type} (srv : Server σ) (s0 : σ) : Except Str (σ × List Il) :=
  let p := srv.get s0
  match get_provinces p.2 with
  | .error e => .error e
  | .ok provinces =>
    match extract_viewstate_and_validation p.2 with
    | (some vs, some ev) =>
      let r := provinces.foldl (provinceStep srv) (p.1, [], some vs, some ev)
      .ok (r.1, r.2.1)
    | _ => .error ("__VIEWSTATE veya __EVENTVALIDATION bulunamadı".toList)

/-- The province ids as parsed by `get_provinces` ( `[]` when it raises). -/
def provinceIds (html : Str) : List Str :=
  match get_provinces html with
  | .ok l => l.map Prod.fst
  | .error _ => []

def headingLit : Str := "## 📅 Son Güncelleme".toList
def labelLit : Str := "**Son güncelleme:**".toList

def turkish_months : List Str :=
  ["Ocak".toList, "Şubat".toList, "Mart".toList, "Nisan".toList, "Mayıs".toList,
   "Haziran".toList, "Temmuz".toList, "Ağustos".toList, "Eylül".toList,
   "Ekim".toList, "Kasım".toList, "Aralık".toList]

/-- Two-digit zero padding of `{n:02d}`. -/
def pad2 (n : Nat) : Str :=
  if n < 10 then '0' :: Nat.toDigits 10 n else Nat.toDigits 10 n

/-- The formatted timestamp `f"{day} {month-name} {year}, {HH}:{MM}"`. -/
def formatted_date (day month year hour minute : Nat) : Str :=
  Nat.toDigits 10 day ++ ' ' :: turkish_months.getD (month - 1) [] ++
    ' ' :: Nat.toDigits 10 year ++ ',' :: ' ' :: pad2 hour ++ ':' :: pad2 minute

/-- One attempted match at the start of `s` of the README pattern
`(## 📅 Son Güncelleme\s*\n\s*\*\*Son güncelleme:\*\*)[^\n]+`: the heading
literal, a whitespace run containing a newline, the label literal, and a
nonempty rest-of-line.  Returns the first capture group and the input rest
after the match. -/
def matchLastUpdated (s : Str) : Option (Str × Str) :=
  if headingLit.isPrefixOf s then
    let t1 := s.drop headingLit.length
    let w := t1.takeWhile isSpace
    let t2 := t1.drop w.length
    if ('\n' ∈ w) ∧ labelLit.isPrefixOf t2 then
      let t3 := t2.drop labelLit.length
      let d := t3.takeWhile (fun x => decide (x ≠ '\n'))
      if d ≠ [] then some (headingLit ++ w ++ labelLit, t3.drop d.length)
      else none
    else none
  else none

/-- Worker for `subLastUpdated`.  The fuel argument only forces structural
termination: a failed start consumes one character, a successful match at
least the heading, so the initial fuel `s.length` is never exhausted. -/
def subGo (fmt : Str) : Nat → Str → Str
  | 0, s => s
  | _, [] => []
  | fuel + 1, c :: rest =>
    match matchLastUpdated (c :: rest) with
    | some pr => pr.1 ++ ' ' :: fmt ++ subGo fmt fuel pr.2
    | none => c :: subGo fmt fuel rest

/-- Model of the `re.sub` in `update_readme`: every non-overlapping match
is replaced by its first group followed by a space and the formatted
date. -/
def subLastUpdated (fmt s : Str) : Str := subGo fmt s.length s

/-- `update_readme` from the source, with the file system abstracted: the
Boolean says whether the status document exists (when it does not, the
function prints a notice and returns, modelled as `none`), the `Str` is the
document's current content, and the `Nat`s are the components of
`datetime.now()`; the result is the rewritten content. -/
def update_readme (readme_exists : Bool) (content : Str)
    (day month year hour minute : Nat) : Option Str :=
  if readme_exists then
    some (subLastUpdated (formatted_date day month year hour minute) content)
  else none

/-- A fully general deterministic server whose state is the list of posted
form dicts: the GET answers `page0`, and each POST is appended to the log
and answered by `pageOf` applied to the whole history. -/
def logServer (page0 : Str) (pageOf : List FormData → Str) : Server (List FormData) :=
  { get := fun s => (s, page0)
    post := fun s fd => (s ++ [fd], pageOf (s ++ [fd])) }

/-- A root page whose province dropdown lists the province id `1` twice,
with `2` in between. -/
def c7page0 : Str :=
  ("MainContent_DropDownList1\"><option value=\"1\">AA</option>" ++
   "<option value=\"2\">BB</option><option value=\"1\">AA</option></select>" ++
   "__VIEWSTATE\" value=\"V1\"__EVENTVALIDATION\" value=\"E1\"").toList

/-- A province-page response carrying one district, one neighborhood list
(with the `-1` placeholder) and fresh tokens. -/
def c7pageP : Str :=
  ("MainContent_DropDownList2\"><option value=\"7\">DD</option></select>" ++
   "MainContent_DropDownList3\"><option value=\"-1\">Sec</option>" ++
   "<option value=\"9\">MODA MAH 34710 / KADIKOY</option></select>" ++
   "__VIEWSTATE\" value=\"V2\"__EVENTVALIDATION\" value=\"E2\"").toList

def c7srv : Server (List FormData) := logServer c7page0 (fun _ => c7pageP)

/-- The province ids of the final address list of the `c7srv` run. -/
def c7ids : List Str :=
  match scrape c7srv [] with
  | .ok r => r.2.map Il.il_id
  | .error _ => []

/-- A root page whose province dropdown lists the same province id `1`
twice. -/
def c10page0 : Str :=
  ("MainContent_DropDownList1\"><option value=\"1\">AA</option>" ++
   "<option value=\"1\">AA</option></select>" ++
   "__VIEWSTATE\" value=\"V1\"__EVENTVALIDATION\" value=\"E1\"").toList

/-- A province-page response with tokens but no district dropdown at all:
`get_districts` parses it to the empty list. -/
def c10emptyPage : Str :=
  ("__VIEWSTATE\" value=\"V3\"__EVENTVALIDATION\" value=\"E3\"").toList

/-- Answers the first province POST and the neighborhood POST with the full
page, and the second province POST (the third call) with the district-less
page. -/
def c10pageOf (t : List FormData) : Str :=
  if t.length ≤ 2 then c7pageP else c10emptyPage

def c10srv : Server (List FormData) := logServer c10page0 c10pageOf

/-- The province ids of the final address list of the `c10srv` run. -/
def c10ids : List Str :=
  match scrape c10srv [] with
  | .ok r => r.2.map Il.il_id
  | .error _ => []

/-- The POST log of the `c10srv` run. -/
def c10trace : List FormData :=
  match scrape c10srv [] with
  | .ok r => r.1
  | .error _ => []

/-- A root page with a single province `5`. -/
def c7wpage0 : Str :=
  ("MainContent_DropDownList1\"><option value=\"5\">EE</option></select>" ++
   "__VIEWSTATE\" value=\"V1\"__EVENTVALIDATION\" value=\"E1\"").toList

/-! ## Theorems -/

theorem dropWhile_eq_self_of_no_sat (p : Char → Bool) (s : Str)
    (h : ∀ c ∈ s, p c = false) : s.dropWhile p = s := by
  cases s with
  | nil => rfl
  | cons c rest => rw [List.dropWhile_cons, h c (List.mem_cons_self c rest)]; simp

theorem pyStrip_eq_self (w : Str) (h : ∀ c ∈ w, isSpace c = false) : pyStrip w = w := by
  unfold pyStrip
  rw [dropWhile_eq_self_of_no_sat isSpace w h,
    dropWhile_eq_self_of_no_sat isSpace w.reverse
      (fun c hc => h c (List.mem_reverse.mp hc))]
  exact List.reverse_reverse w

theorem pySplitAux_no_space (s : Str) : ∀ acc : Str, (∀ c ∈ s, isSpace c = false) →
    (acc ≠ [] ∨ s ≠ []) → pySplitAux acc s = [acc.reverse ++ s] := by
  induction s with
  | nil =>
    intro acc _ hne
    have hacc : acc ≠ [] := by
      rcases hne with h | h
      · exact h
      · exact absurd rfl h
    simp [pySplitAux, hacc]
  | cons c rest ih =>
    intro acc h _
    have hc : isSpace c = false := h c (List.mem_cons_self c rest)
    rw [show pySplitAux acc (c :: rest) =
        (if isSpace c then
          if acc = [] then pySplitAux [] rest else acc.reverse :: pySplitAux [] rest
        else pySplitAux (c :: acc) rest) from rfl]
    rw [hc]
    simp only [Bool.false_eq_true, if_false]
    rw [ih (c :: acc) (fun d hd => h d (List.mem_cons_of_mem c hd)) (Or.inl (by simp))]
    simp

theorem pySplit_single (w : Str) (hne : w ≠ []) (h : ∀ c ∈ w, isSpace c = false) :
    pySplit w = [w] := by
  unfold pySplit
  rw [pySplitAux_no_space w [] h (Or.inr hne)]
  simp

/-- Claim C1: on label inputs, `capitalize_first_letter` title-cases each
word by preserving the word's first character and lower-casing the
remainder, where the characters of `TURKISH_LOWERCASE` are mapped through
the table (`I` to `ı`, `İ` to `i`, ...) and all other characters through
generic lower-casing (`lowerRest`); in particular the all-uppercase word
`KADIKÖY` becomes `Kadıköy`. -/
theorem c1_turkish_title_case (w : Str) (hne : w ≠ [])
    (hns : ∀ c ∈ w, isSpace c = false) :
    capitalize_first_letter w = w.take 1 ++ lowerRest (w.drop 1) ∧
    (∀ p ∈ TURKISH_LOWERCASE, lowerRest [p.1] = [p.2]) ∧
    capitalize_first_letter ("KADIKÖY".toList) = "Kadıköy".toList := by
  refine ⟨?_, by decide, by decide⟩
  cases w with
  | nil => exact absurd rfl hne
  | cons c rest =>
    unfold capitalize_first_letter
    rw [pyStrip_eq_self _ hns, pySplit_single _ hne hns]
    simp [capWords, joinSpace]

/-- Witness for C1 at the concrete word `KADIKÖY`. -/
theorem c1_witness :
    capitalize_first_letter ("KADIKÖY".toList) =
      ("KADIKÖY".toList).take 1 ++ lowerRest (("KADIKÖY".toList).drop 1) ∧
    capitalize_first_letter ("KADIKÖY".toList) = "Kadıköy".toList :=
  ⟨(c1_turkish_title_case ("KADIKÖY".toList) (by decide) (by decide)).1,
    (c1_turkish_title_case ("KADIKÖY".toList) (by decide) (by decide)).2.2⟩

theorem slashToUnderscore_of_idchar (c : Char) (h : isIdChar c = true) :
    slashToUnderscore c = c := by
  unfold slashToUnderscore
  split_ifs with hc
  · rcases hc with h1 | h1 <;> subst h1 <;> exact absurd h (by decide)
  · rfl

theorem map_slash_eq_self (t : Str) (ht : ∀ c ∈ t, isIdChar c = true) :
    t.map slashToUnderscore = t := by
  induction t with
  | nil => rfl
  | cons c r ih =>
    simp only [List.map_cons]
    rw [slashToUnderscore_of_idchar c (ht c (List.mem_cons_self c r)),
      ih (fun d hd => ht d (List.mem_cons_of_mem c hd))]

theorem clean_id_eq_self (t : Str) (ht : ∀ c ∈ t, isIdChar c = true) :
    clean_id t = t := by
  unfold clean_id
  rw [map_slash_eq_self t ht]
  exact List.filter_eq_self.mpr ht

theorem mem_clean_id_idchar (s : Str) : ∀ c ∈ clean_id s, isIdChar c = true :=
  fun _ hc => List.of_mem_filter hc

/-- Claim C3: `clean_id` is idempotent, and it is the identity on strings
made only of `[a-zA-Z0-9_]` characters. -/
theorem c3_clean_id_idempotent (s t : Str) (ht : ∀ c ∈ t, isIdChar c = true) :
    clean_id (clean_id s) = clean_id s ∧ clean_id t = t :=
  ⟨clean_id_eq_self (clean_id s) (mem_clean_id_idchar s), clean_id_eq_self t ht⟩

/-- Witness for C3 at concrete strings. -/
theorem c3_witness :
    clean_id (clean_id ("a/b\\c!9".toList)) = clean_id ("a/b\\c!9".toList) ∧
    clean_id ("ab_9Z".toList) = "ab_9Z".toList :=
  c3_clean_id_idempotent ("a/b\\c!9".toList) ("ab_9Z".toList) (by decide)

/-- Claim C5: on a district page carrying neither state token,
`get_neighborhoods` returns the empty list, leaves the session state of any
server untouched (no form submission happens), and does not fail. -/
theorem c5_missing_tokens (σ : Type) (srv : Server σ) (s : σ)
    (pid did dhtml : Str)
    (h : extract_viewstate_and_validation dhtml = (none, none)) :
    get_neighborhoods srv s pid did dhtml = (s, []) := by
  unfold get_neighborhoods
  rw [h]

/-- Witness for C5 at a concrete token-free page. -/
theorem c5_witness :
    extract_viewstate_and_validation ("no tokens here".toList) = (none, none) ∧
    get_neighborhoods (logServer [] (fun _ => [])) ([] : List FormData)
      ("1".toList) ("2".toList) ("no tokens here".toList) = (([] : List FormData), []) :=
  ⟨by decide,
    c5_missing_tokens (List FormData) (logServer [] (fun _ => [])) []
      ("1".toList) ("2".toList) ("no tokens here".toList) (by decide)⟩

/-- Claim C4: `get_provinces` raises exactly when the province dropdown
block is absent, while `get_districts` and `get_neighborhoods` degrade to
the empty list when their dropdown block is absent. -/
theorem c4_anchor_error_handling :
    (∀ html : Str, (∃ e, get_provinces html = .error e) ↔
      extractBlock ddl1Anchor html = none) ∧
    (∀ pid html : Str, extractBlock ddl2Anchor html = none →
      get_districts pid html = []) ∧
    (∀ (σ : Type) (srv : Server σ) (s : σ) (pid did dhtml vs ev : Str),
      extract_viewstate_and_validation dhtml = (some vs, some ev) →
      extractBlock ddl3Anchor (srv.post s (neighborhoodFormData vs ev pid did)).2 = none →
      (get_neighborhoods srv s pid did dhtml).2 = []) := by
  refine ⟨?_, ?_, ?_⟩
  · intro html
    unfold get_provinces
    cases hb : extractBlock ddl1Anchor html with
    | none => simp
    | some block => simp
  · intro pid html h
    unfold get_districts
    rw [h]
  · intro σ srv s pid did dhtml vs ev htok hanchor
    unfold get_neighborhoods
    rw [htok]
    simp only [hanchor]

/-- Witness for C4 at concrete pages. -/
theorem c4_witness :
    extractBlock ddl1Anchor ("x".toList) = none ∧
    get_districts ("1".toList) ("x".toList) = [] ∧
    (get_neighborhoods (logServer [] (fun _ => ("nope".toList)))
      ([] : List FormData) ("1".toList) ("2".toList) c10emptyPage).2 = [] :=
  ⟨(c4_anchor_error_handling.1 ("x".toList)).mp ⟨_, rfl⟩,
    c4_anchor_error_handling.2.1 ("1".toList) ("x".toList) (by decide),
    c4_anchor_error_handling.2.2 (List FormData) (logServer [] (fun _ => ("nope".toList)))
      [] ("1".toList) ("2".toList) c10emptyPage ("V3".toList) ("E3".toList)
      (by decide) (by decide)⟩

theorem dash_not_mem_clean_id (s : Str) : '-' ∉ clean_id s :=
  fun h => absurd (mem_clean_id_idchar s '-' h) (by decide)

theorem clean_id_ne_dash_one (s : Str) : clean_id s ≠ "-1".toList := by
  intro h
  apply dash_not_mem_clean_id s
  rw [h]
  decide

/-- Every record of `get_neighborhoods` comes from a parsed non-placeholder
option through `mkMahalle`. -/
theorem get_neighborhoods_mem {σ : Type} (srv : Server σ) (s : σ)
    (pid did dhtml : Str) :
    ∀ m ∈ (get_neighborhoods srv s pid did dhtml).2,
      ∃ nid nname, nid ≠ "-1".toList ∧ m = mkMahalle nid nname := by
  intro m hm
  unfold get_neighborhoods at hm
  rcases hex : extract_viewstate_and_validation dhtml with ⟨vs?, ev?⟩
  rw [hex] at hm
  cases vs? with
  | none => simp at hm
  | some vs =>
    cases ev? with
    | none => simp at hm
    | some ev =>
      simp only [] at hm
      cases hb : extractBlock ddl3Anchor
          (srv.post s (neighborhoodFormData vs ev pid did)).2 with
      | none => rw [hb] at hm; simp at hm
      | some block =>
        rw [hb] at hm
        simp only [List.mem_map, List.mem_filter] at hm
        obtain ⟨q, ⟨_, hq⟩, rfl⟩ := hm
        exact ⟨q.1, q.2, of_decide_eq_true hq, rfl⟩

/-- Claim C6: no parsed list ever contains an entry whose identifier is the
placeholder value `-1`. -/
theorem c6_no_placeholder :
    (∀ (html : Str) (l : List (Str × Str)), get_provinces html = .ok l →
      ∀ p ∈ l, p.1 ≠ "-1".toList) ∧
    (∀ pid html : Str, ∀ p ∈ get_districts pid html, p.1 ≠ "-1".toList) ∧
    (∀ (σ : Type) (srv : Server σ) (s : σ) (pid did dhtml : Str),
      ∀ m ∈ (get_neighborhoods srv s pid did dhtml).2,
        m.mahalle_id ≠ "-1".toList) := by
  refine ⟨?_, ?_, ?_⟩
  · intro html l hl p hp
    unfold get_provinces at hl
    cases hb : extractBlock ddl1Anchor html with
    | none => rw [hb] at hl; cases hl
    | some block =>
      rw [hb] at hl
      injection hl with hl
      subst hl
      exact of_decide_eq_true (List.mem_filter.mp hp).2
  · intro pid html p hp
    unfold get_districts at hp
    cases hb : extractBlock ddl2Anchor html with
    | none => rw [hb] at hp; simp at hp
    | some block =>
      rw [hb] at hp
      exact of_decide_eq_true (List.mem_filter.mp hp).2
  · intro σ srv s pid did dhtml m hm
    obtain ⟨nid, nname, _, rfl⟩ := get_neighborhoods_mem srv s pid did dhtml m hm
    exact clean_id_ne_dash_one nid

/-- Witness for C6 at concrete markup containing a `-1` placeholder among
real options. -/
theorem c6_witness :
    ("1".toList, "AA".toList).1 ≠ "-1".toList ∧
    ("7".toList, "DD".toList).1 ≠ "-1".toList ∧
    ({ mahalle_id := "9".toList, mahalle_adi := "Moda Mah 34710".toList,
       posta_kodu := some ("34710".toList)} : Mahalle).mahalle_id ≠ "-1".toList :=
  ⟨c6_no_placeholder.1 c7page0
      [("1".toList, "AA".toList), ("2".toList, "BB".toList), ("1".toList, "AA".toList)]
      (by rfl) ("1".toList, "AA".toList) (by decide),
    c6_no_placeholder.2.1 ("1".toList) c7pageP ("7".toList, "DD".toList) (by decide),
    c6_no_placeholder.2.2 (List FormData) c7srv [] ("1".toList) ("7".toList) c7pageP
      { mahalle_id := "9".toList, mahalle_adi := "Moda Mah 34710".toList,
        posta_kodu := some ("34710".toList)} (by decide)⟩

theorem takeWhile_append_stop (p : Char → Bool) (u : Str) (x : Char) (v : Str)
    (hu : ∀ c ∈ u, p c = true) (hx : p x = false) :
    (u ++ x :: v).takeWhile p = u := by
  induction u with
  | nil => simp [List.takeWhile_cons, hx]
  | cons c u' ih =>
    have hc : p c = true := hu c (List.mem_cons_self c u')
    have ih' := ih (fun d hd => hu d (List.mem_cons_of_mem c hd))
    simp [List.takeWhile_cons, hc, ih']

/-- Claim C2: each neighborhood record is built by `mkMahalle` from a
parsed option; its postal code is the leftmost five-digit run of the
normalized label and its name is the normalized label truncated at the
first `/` with the preceding whitespace removed. -/
theorem c2_postal_code_and_truncation :
    (∀ (σ : Type) (srv : Server σ) (s : σ) (pid did dhtml : Str),
      ∀ m ∈ (get_neighborhoods srv s pid did dhtml).2,
        ∃ nid nname, m = mkMahalle nid nname) ∧
    (∀ nid nname : Str,
      (mkMahalle nid nname).posta_kodu = find5digits (clean_text nname) ∧
      (mkMahalle nid nname).mahalle_adi = dropAfterSlash (clean_text nname)) ∧
    (∀ c u p v : Str, c = u ++ p ++ v → p.length = 5 →
      (∀ x ∈ p, isDigit x = true) →
      (∀ i < u.length, digitWindow5 (c.drop i) = false) →
      find5digits c = some p) ∧
    (∀ n rest : Str, '/' ∉ n →
      dropAfterSlash (n ++ '/' :: rest) = stripTrailingWS n) := by
  refine ⟨?_, ?_, ?_, ?_⟩
  · intro σ srv s pid did dhtml m hm
    obtain ⟨nid, nname, _, hmk⟩ := get_neighborhoods_mem srv s pid did dhtml m hm
    exact ⟨nid, nname, hmk⟩
  · intro nid nname
    exact ⟨rfl, rfl⟩
  · intro c u p v hc h5 hdig hwin
    subst hc
    induction u with
    | nil =>
      cases p with
      | nil => simp at h5
      | cons a q =>
        rw [show ([] : Str) ++ (a :: q) ++ v = a :: (q ++ v) by simp]
        have htake : (a :: (q ++ v)).take 5 = a :: q := by
          rw [show a :: (q ++ v) = (a :: q) ++ v by simp]
          exact List.take_left' h5
        have hw : digitWindow5 (a :: (q ++ v)) = true := by
          unfold digitWindow5
          apply decide_eq_true
          rw [htake]
          exact ⟨h5, hdig⟩
        simp [find5digits, hw, htake]
    | cons x u' ih =>
      have h0 : digitWindow5 (x :: (u' ++ p ++ v)) = false := by
        have := hwin 0 (by simp)
        simpa using this
      rw [show (x :: u') ++ p ++ v = x :: (u' ++ p ++ v) by simp]
      rw [show find5digits (x :: (u' ++ p ++ v)) =
          (if digitWindow5 (x :: (u' ++ p ++ v)) then
            some ((x :: (u' ++ p ++ v)).take 5)
          else find5digits (u' ++ p ++ v)) from rfl]
      rw [h0]
      simp only [Bool.false_eq_true, if_false]
      exact ih (fun i hi => by
        have := hwin (i + 1) (by simp; omega)
        simpa using this)
  · intro n rest hn
    unfold dropAfterSlash
    rw [if_pos (by simp : '/' ∈ n ++ '/' :: rest)]
    congr 1
    exact takeWhile_append_stop _ n '/' rest
      (fun c hc => decide_eq_true (fun h => hn (h ▸ hc)))
      (by simp)

/-- Witness for C2 at the concrete normalized label `Mm 34710 / X`. -/
theorem c2_witness :
    ({ mahalle_id := "9".toList, mahalle_adi := "Moda Mah 34710".toList,
        posta_kodu := some ("34710".toList)} : Mahalle) ∈
      (get_neighborhoods c7srv ([] : List FormData) ("1".toList) ("7".toList) c7pageP).2 ∧
    find5digits ("Mm 34710 / X".toList) = some ("34710".toList) ∧
    dropAfterSlash ("Mm 34710 ".toList ++ '/' :: " X".toList) =
      stripTrailingWS ("Mm 34710 ".toList) := by
  refine ⟨by decide, ?_, ?_⟩
  · exact c2_postal_code_and_truncation.2.2.1 ("Mm 34710 / X".toList) ("Mm ".toList)
      ("34710".toList) (" / X".toList) (by decide) (by decide) (by decide) (by decide)
  · exact c2_postal_code_and_truncation.2.2.2 ("Mm 34710 ".toList) (" X".toList) (by decide)

theorem update_last_match (ad : List Il) (cur lastIl : Il)
    (hl : ad.getLast? = some lastIl) (he : lastIl.il_id = cur.il_id) :
    updateAddressData ad cur = ad.dropLast ++ [cur] := by
  unfold updateAddressData
  rw [hl]
  show (if lastIl.il_id = cur.il_id then ad.dropLast ++ [cur] else ad ++ [cur]) =
    ad.dropLast ++ [cur]
  rw [if_pos he]

theorem update_no_match (ad : List Il) (cur lastIl : Il)
    (hl : ad.getLast? = some lastIl) (he : ¬ lastIl.il_id = cur.il_id) :
    updateAddressData ad cur = ad ++ [cur] := by
  unfold updateAddressData
  rw [hl]
  show (if lastIl.il_id = cur.il_id then ad.dropLast ++ [cur] else ad ++ [cur]) =
    ad ++ [cur]
  rw [if_neg he]

theorem update_empty (cur : Il) : updateAddressData [] cur = [cur] := rfl

theorem districtStep_cur_il_id {σ : Type} (srv : Server σ) (pid dhtml : Str)
    (s : σ) (cur : Il) (ad : List Il) (d : Str × Str) :
    (districtStep srv pid dhtml (s, cur, ad) d).2.1.il_id = cur.il_id := rfl

theorem districtStep_cur_ilceler_ne {σ : Type} (srv : Server σ) (pid dhtml : Str)
    (s : σ) (cur : Il) (ad : List Il) (d : Str × Str) :
    (districtStep srv pid dhtml (s, cur, ad) d).2.1.ilceler ≠ [] := by
  simp [districtStep]

theorem districtStep_ad {σ : Type} (srv : Server σ) (pid dhtml : Str)
    (s : σ) (cur : Il) (ad : List Il) (d : Str × Str) :
    (districtStep srv pid dhtml (s, cur, ad) d).2.2 =
      updateAddressData ad (districtStep srv pid dhtml (s, cur, ad) d).2.1 := rfl

/-- Once the accumulated list ends in an entry carrying the current
province id, every further district update replaces that entry and leaves
the id sequence unchanged. -/
theorem districtFold_ids_stable {σ : Type} (srv : Server σ) (pid dhtml : Str) :
    ∀ (ds : List (Str × Str)) (s : σ) (cur : Il) (ad : List Il) (lastIl : Il),
      cur.il_id = pid → ad.getLast? = some lastIl → lastIl.il_id = pid →
      ((ds.foldl (districtStep srv pid dhtml) (s, cur, ad)).2.2).map Il.il_id =
        ad.map Il.il_id := by
  intro ds
  induction ds with
  | nil => intro s cur ad lastIl _ _ _; rfl
  | cons d ds' ih =>
    intro s cur ad lastIl hcur hl hlast
    rw [List.foldl_cons]
    set X := districtStep srv pid dhtml (s, cur, ad) d with hX
    have hid : X.2.1.il_id = pid := by
      rw [hX, districtStep_cur_il_id]
      exact hcur
    have hupd : X.2.2 = ad.dropLast ++ [X.2.1] := by
      rw [hX, districtStep_ad srv pid dhtml s cur ad d]
      exact update_last_match ad _ lastIl hl
        (by rw [districtStep_cur_il_id]; exact hlast.trans hcur.symm)
    have h5 : ((ds'.foldl (districtStep srv pid dhtml) X).2.2).map Il.il_id =
        (X.2.2).map Il.il_id :=
      ih X.1 X.2.1 X.2.2 X.2.1 hid (by rw [hupd]; exact List.getLast?_concat _) hid
    rw [h5, hupd, List.map_append, List.map_dropLast]
    have hgl : (ad.map Il.il_id).getLast? = some pid := by
      rw [List.getLast?_map, hl]
      simp [hlast]
    have h2 := List.dropLast_append_getLast? pid hgl
    simpa [hid] using h2

/-- The id sequence after a whole district loop: unchanged when there are
no districts, else the current province id is appended, or replaces a
matching last entry. -/
theorem districtFold_ids_cases {σ : Type} (srv : Server σ) (pid dhtml : Str)
    (ds : List (Str × Str)) (s : σ) (cur : Il) (ad : List Il) (hcur : cur.il_id = pid) :
    ((ds.foldl (districtStep srv pid dhtml) (s, cur, ad)).2.2).map Il.il_id =
        ad.map Il.il_id ∨
    ((ds.foldl (districtStep srv pid dhtml) (s, cur, ad)).2.2).map Il.il_id =
        ad.map Il.il_id ++ [pid] ∨
    ((ds.foldl (districtStep srv pid dhtml) (s, cur, ad)).2.2).map Il.il_id =
        (ad.map Il.il_id).dropLast ++ [pid] := by
  cases ds with
  | nil => left; rfl
  | cons d ds' =>
    rw [List.foldl_cons]
    set X := districtStep srv pid dhtml (s, cur, ad) d with hX
    have hid : X.2.1.il_id = pid := by
      rw [hX, districtStep_cur_il_id]
      exact hcur
    have hXad : X.2.2 = updateAddressData ad X.2.1 := by
      rw [hX]
      exact districtStep_ad srv pid dhtml s cur ad d
    cases hl : ad.getLast? with
    | none =>
      have had : ad = [] := List.getLast?_eq_none_iff.mp hl
      subst had
      have hupd : X.2.2 = [X.2.1] := by rw [hXad]; exact update_empty _
      right; left
      have h5 : ((ds'.foldl (districtStep srv pid dhtml) X).2.2).map Il.il_id =
          (X.2.2).map Il.il_id :=
        districtFold_ids_stable srv pid dhtml ds' X.1 X.2.1 X.2.2 X.2.1 hid
          (by rw [hupd]; rfl) hid
      rw [h5, hupd]
      simp [hid]
    | some lastIl =>
      by_cases he : lastIl.il_id = pid
      · right; right
        have hupd : X.2.2 = ad.dropLast ++ [X.2.1] := by
          rw [hXad]
          exact update_last_match ad _ lastIl hl (he.trans hid.symm)
        have h5 : ((ds'.foldl (districtStep srv pid dhtml) X).2.2).map Il.il_id =
            (X.2.2).map Il.il_id :=
          districtFold_ids_stable srv pid dhtml ds' X.1 X.2.1 X.2.2 X.2.1 hid
            (by rw [hupd]; exact List.getLast?_concat _) hid
        rw [h5, hupd, List.map_append, List.map_dropLast]
        simp [hid]
      · right; left
        have hupd : X.2.2 = ad ++ [X.2.1] := by
          rw [hXad]
          exact update_no_match ad _ lastIl hl (fun hx => he (hx.trans hid))
        have h5 : ((ds'.foldl (districtStep srv pid dhtml) X).2.2).map Il.il_id =
            (X.2.2).map Il.il_id :=
          districtFold_ids_stable srv pid dhtml ds' X.1 X.2.1 X.2.2 X.2.1 hid
            (by rw [hupd]; exact List.getLast?_concat _) hid
        rw [h5, hupd, List.map_append]
        simp [hid]

theorem districtFold_ids_sublist {σ : Type} (srv : Server σ) (pid dhtml : Str)
    (ds : List (Str × Str)) (s : σ) (cur : Il) (ad : List Il) (hcur : cur.il_id = pid) :
    (((ds.foldl (districtStep srv pid dhtml) (s, cur, ad)).2.2).map Il.il_id).Sublist
      (ad.map Il.il_id ++ [pid]) := by
  rcases districtFold_ids_cases srv pid dhtml ds s cur ad hcur with h | h | h <;> rw [h]
  · exact List.sublist_append_left _ _
  · exact (List.dropLast_sublist _).append_right _

/-- One unfolding of the province-loop body. -/
theorem provinceStep_def {σ : Type} (srv : Server σ)
    (s : σ) (ad : List Il) (vs ev : Option Str) (prov : Str × Str) :
    provinceStep srv (s, ad, vs, ev) prov =
      (((get_districts prov.1 (srv.post s (districtFormData vs ev prov.1)).2).foldl
          (districtStep srv prov.1 (srv.post s (districtFormData vs ev prov.1)).2)
          ((srv.post s (districtFormData vs ev prov.1)).1,
           { il_id := prov.1, il_adi := clean_text prov.2, ilceler := [] }, ad)).1,
       ((get_districts prov.1 (srv.post s (districtFormData vs ev prov.1)).2).foldl
          (districtStep srv prov.1 (srv.post s (districtFormData vs ev prov.1)).2)
          ((srv.post s (districtFormData vs ev prov.1)).1,
           { il_id := prov.1, il_adi := clean_text prov.2, ilceler := [] }, ad)).2.2,
       (extract_viewstate_and_validation (srv.post s (districtFormData vs ev prov.1)).2).1,
       (extract_viewstate_and_validation (srv.post s (districtFormData vs ev prov.1)).2).2) := rfl

theorem provinceFold_ids {σ : Type} (srv : Server σ) :
    ∀ (provs : List (Str × Str)) (s : σ) (ad : List Il) (vs ev : Option Str),
      (((provs.foldl (provinceStep srv) (s, ad, vs, ev)).2.1).map Il.il_id).Sublist
        (ad.map Il.il_id ++ provs.map Prod.fst) := by
  intro provs
  induction provs with
  | nil => intro s ad vs ev; simp
  | cons pv provs' ih =>
    intro s ad vs ev
    rw [List.foldl_cons, provinceStep_def]
    set dp := srv.post s (districtFormData vs ev pv.1) with hdp
    set F := (get_districts pv.1 dp.2).foldl (districtStep srv pv.1 dp.2)
      (dp.1, { il_id := pv.1, il_adi := clean_text pv.2, ilceler := [] }, ad) with hF
    have h1 := ih F.1 F.2.2 (extract_viewstate_and_validation dp.2).1
      (extract_viewstate_and_validation dp.2).2
    have h2 : ((F.2.2).map Il.il_id).Sublist (ad.map Il.il_id ++ [pv.1]) := by
      rw [hF]
      exact districtFold_ids_sublist srv pv.1 dp.2 _ dp.1 _ ad rfl
    have h3 := h1.trans (h2.append_right (provs'.map Prod.fst))
    simpa [List.append_assoc] using h3

/-- `scrape` with its `let`s inlined, for rewriting. -/
theorem scrape_def {σ : Type} (srv : Server σ) (s0 : σ) :
    scrape srv s0 =
      match get_provinces (srv.get s0).2 with
      | .error e => .error e
      | .ok provinces =>
        match extract_viewstate_and_validation (srv.get s0).2 with
        | (some vs, some ev) =>
          .ok ((provinces.foldl (provinceStep srv)
                  ((srv.get s0).1, [], some vs, some ev)).1,
               (provinces.foldl (provinceStep srv)
                  ((srv.get s0).1, [], some vs, some ev)).2.1)
        | _ => .error ("__VIEWSTATE veya __EVENTVALIDATION bulunamadı".toList) := rfl

/-- A successful `scrape` run decomposed into its parse results and the
province fold. -/
theorem scrape_ok_elim {σ : Type} (srv : Server σ) (s0 : σ) (s' : σ) (ad : List Il)
    (h : scrape srv s0 = .ok (s', ad)) :
    ∃ provinces vs ev,
      get_provinces (srv.get s0).2 = .ok provinces ∧
      extract_viewstate_and_validation (srv.get s0).2 = (some vs, some ev) ∧
      ad = (provinces.foldl (provinceStep srv)
        ((srv.get s0).1, [], some vs, some ev)).2.1 := by
  rw [scrape_def] at h
  cases hp : get_provinces (srv.get s0).2 with
  | error e => rw [hp] at h; simp at h
  | ok provinces =>
    rw [hp] at h
    rcases hex : extract_viewstate_and_validation (srv.get s0).2 with ⟨a, b⟩
    rw [hex] at h
    cases a with
    | none => simp at h
    | some vs =>
      cases b with
      | none => simp at h
      | some ev =>
        simp only [Except.ok.injEq, Prod.mk.injEq] at h
        exact ⟨provinces, vs, ev, rfl, rfl, h.2.symm⟩

theorem scrape_ok_ids {σ : Type} (srv : Server σ) (s0 : σ) (s' : σ) (ad : List Il)
    (h : scrape srv s0 = .ok (s', ad)) :
    (ad.map Il.il_id).Sublist (provinceIds (srv.get s0).2) := by
  obtain ⟨provinces, vs, ev, hp, hex, had⟩ := scrape_ok_elim srv s0 s' ad h
  subst had
  unfold provinceIds
  rw [hp]
  simpa using provinceFold_ids srv provinces (srv.get s0).1 [] (some vs) (some ev)

/-- Claim C7 counterexample: with a root page listing province id `1`,
then `2`, then `1` again (each occurrence having one district), the final
list of `scrape` carries the id sequence `1, 2, 1` — two entries share an
`il_id`, so the claimed global uniqueness fails. -/
theorem c7_counterexample :
    c7ids = ["1".toList, "2".toList, "1".toList] ∧ ¬ c7ids.Nodup := by
  decide

/-- Claim C7 (amended): the per-district update replaces the last entry
when it carries the same province id, so the id sequence of the final list
is a sublist of the parsed province-id sequence; in particular, when the
parsed province ids are pairwise distinct (as on the real service), no two
entries of the final list share an `il_id`. -/
theorem c7_amended_no_duplicate_ids {σ : Type} (srv : Server σ) (s0 : σ)
    (s' : σ) (ad : List Il) (h : scrape srv s0 = .ok (s', ad)) :
    (ad.map Il.il_id).Sublist (provinceIds (srv.get s0).2) ∧
    ((provinceIds (srv.get s0).2).Nodup → (ad.map Il.il_id).Nodup) := by
  have main := scrape_ok_ids srv s0 s' ad h
  exact ⟨main, fun hnd => hnd.sublist main⟩

/-- Witness for the amended C7 on a concrete one-province run. -/
theorem c7_witness :
    ((([] : List Il)).map Il.il_id).Sublist
      (provinceIds ((logServer c7wpage0 (fun _ => c10emptyPage)).get []).2) ∧
    (([] : List Il).map Il.il_id).Nodup :=
  ⟨(c7_amended_no_duplicate_ids (logServer c7wpage0 (fun _ => c10emptyPage)) []
      [districtFormData (some ("V1".toList)) (some ("E1".toList)) ("5".toList)] []
      (by rfl)).1,
    (c7_amended_no_duplicate_ids (logServer c7wpage0 (fun _ => c10emptyPage)) []
      [districtFormData (some ("V1".toList)) (some ("E1".toList)) ("5".toList)] []
      (by rfl)).2 (by decide)⟩

theorem update_nonempty (ad : List Il) (cur : Il)
    (had : ∀ il ∈ ad, il.ilceler ≠ []) (hcur : cur.ilceler ≠ []) :
    ∀ il ∈ updateAddressData ad cur, il.ilceler ≠ [] := by
  intro il hil
  cases hl : ad.getLast? with
  | none =>
    have had0 : ad = [] := List.getLast?_eq_none_iff.mp hl
    subst had0
    rw [update_empty] at hil
    simp only [List.mem_singleton] at hil
    subst hil
    exact hcur
  | some lastIl =>
    by_cases he : lastIl.il_id = cur.il_id
    · rw [update_last_match ad cur lastIl hl he] at hil
      rcases List.mem_append.mp hil with h1 | h1
      · exact had il ((List.dropLast_sublist ad).subset h1)
      · simp only [List.mem_singleton] at h1
        subst h1
        exact hcur
    · rw [update_no_match ad cur lastIl hl he] at hil
      rcases List.mem_append.mp hil with h1 | h1
      · exact had il h1
      · simp only [List.mem_singleton] at h1
        subst h1
        exact hcur

theorem districtFold_nonempty {σ : Type} (srv : Server σ) (pid dhtml : Str) :
    ∀ (ds : List (Str × Str)) (s : σ) (cur : Il) (ad : List Il),
      (∀ il ∈ ad, il.ilceler ≠ []) →
      ∀ il ∈ (ds.foldl (districtStep srv pid dhtml) (s, cur, ad)).2.2,
        il.ilceler ≠ [] := by
  intro ds
  induction ds with
  | nil => intro s cur ad had; exact had
  | cons d ds' ih =>
    intro s cur ad had
    rw [List.foldl_cons]
    set X := districtStep srv pid dhtml (s, cur, ad) d with hX
    have hne : X.2.1.ilceler ≠ [] := by
      rw [hX]
      exact districtStep_cur_ilceler_ne srv pid dhtml s cur ad d
    have hXad : X.2.2 = updateAddressData ad X.2.1 := by
      rw [hX]
      exact districtStep_ad srv pid dhtml s cur ad d
    have hstep : ∀ il ∈ X.2.2, il.ilceler ≠ [] := by
      rw [hXad]
      exact update_nonempty ad X.2.1 had hne
    exact ih X.1 X.2.1 X.2.2 hstep

theorem provinceFold_nonempty {σ : Type} (srv : Server σ) :
    ∀ (provs : List (Str × Str)) (s : σ) (ad : List Il) (vs ev : Option Str),
      (∀ il ∈ ad, il.ilceler ≠ []) →
      ∀ il ∈ (provs.foldl (provinceStep srv) (s, ad, vs, ev)).2.1,
        il.ilceler ≠ [] := by
  intro provs
  induction provs with
  | nil => intro s ad vs ev had; exact had
  | cons pv provs' ih =>
    intro s ad vs ev had
    rw [List.foldl_cons, provinceStep_def]
    set dp := srv.post s (districtFormData vs ev pv.1) with hdp
    set F := (get_districts pv.1 dp.2).foldl (districtStep srv pv.1 dp.2)
      (dp.1, { il_id := pv.1, il_adi := clean_text pv.2, ilceler := [] }, ad) with hF
    have hstep : ∀ il ∈ F.2.2, il.ilceler ≠ [] := by
      rw [hF]
      exact districtFold_nonempty srv pv.1 dp.2 _ dp.1 _ ad had
    exact ih F.1 F.2.2 (extract_viewstate_and_validation dp.2).1
      (extract_viewstate_and_validation dp.2).2 hstep

/-- Claim C10 counterexample: with a root page listing province id `1`
twice, where the first occurrence has one district and the second parses
an empty district list, the final list still contains a record with
`il_id = 1` — so the claim fails as stated about province ids. -/
theorem c10_counterexample :
    provinceIds c10page0 = ["1".toList, "1".toList] ∧
    get_districts ("1".toList) c10emptyPage = [] ∧
    c10trace.length = 3 ∧ c10pageOf c10trace = c10emptyPage ∧
    c10ids = ["1".toList] := by
  decide

/-- Claim C10 (amended): a province record is appended to the accumulated
list only inside the per-district loop, so every record of `scrape`'s
output has a nonempty `ilceler` list — a province occurrence whose
district list parses as empty contributes no record (though a record with
the same `il_id` may still exist from another occurrence of that id). -/
theorem c10_amended_no_empty_province {σ : Type} (srv : Server σ) (s0 : σ)
    (s' : σ) (ad : List Il) (h : scrape srv s0 = .ok (s', ad)) :
    ∀ il ∈ ad, il.ilceler ≠ [] := by
  obtain ⟨provinces, vs, ev, _, _, had⟩ := scrape_ok_elim srv s0 s' ad h
  subst had
  exact provinceFold_nonempty srv provinces (srv.get s0).1 [] (some vs) (some ev)
    (by intro il hil; cases hil)

/-- Witness for the amended C10 on a concrete one-province run. -/
theorem c10_witness :
    (Il.mk ("5".toList) ("Ee".toList)
      [Ilce.mk ("7".toList) ("Dd".toList)
        [Mahalle.mk ("9".toList) ("Moda Mah 34710".toList)
          (some ("34710".toList))]]).ilceler ≠ [] :=
  c10_amended_no_empty_province (logServer c7wpage0 (fun _ => c7pageP)) []
    [districtFormData (some ("V1".toList)) (some ("E1".toList)) ("5".toList),
     neighborhoodFormData ("V2".toList) ("E2".toList) ("5".toList) ("7".toList)]
    [Il.mk ("5".toList) ("Ee".toList)
      [Ilce.mk ("7".toList) ("Dd".toList)
        [Mahalle.mk ("9".toList) ("Moda Mah 34710".toList)
          (some ("34710".toList))]]]
    (by rfl) _ (by decide)

theorem get_neighborhoods_log_trace (page0 : Str) (pageOf : List FormData → Str)
    (t : List FormData) (pid did dhtml vs ev : Str)
    (h : extract_viewstate_and_validation dhtml = (some vs, some ev)) :
    (get_neighborhoods (logServer page0 pageOf) t pid did dhtml).1 =
      t ++ [neighborhoodFormData vs ev pid did] := by
  unfold get_neighborhoods
  rw [h]
  simp only [logServer]
  cases hb : extractBlock ddl3Anchor (pageOf (t ++ [neighborhoodFormData vs ev pid did])) with
  | none => simp
  | some block => simp

theorem districtFold_log_trace (page0 : Str) (pageOf : List FormData → Str)
    (pid dhtml vs ev : Str)
    (h : extract_viewstate_and_validation dhtml = (some vs, some ev)) :
    ∀ (ds : List (Str × Str)) (t : List FormData) (cur : Il) (ad : List Il),
      (ds.foldl (districtStep (logServer page0 pageOf) pid dhtml) (t, cur, ad)).1 =
        t ++ ds.map (fun d => neighborhoodFormData vs ev pid d.1) := by
  intro ds
  induction ds with
  | nil => intro t cur ad; simp
  | cons d ds' ih =>
    intro t cur ad
    rw [List.foldl_cons]
    set X := districtStep (logServer page0 pageOf) pid dhtml (t, cur, ad) d with hX
    have hx1 : X.1 = t ++ [neighborhoodFormData vs ev pid d.1] := by
      rw [hX]
      show (get_neighborhoods (logServer page0 pageOf) t pid d.1 dhtml).1 = _
      exact get_neighborhoods_log_trace page0 pageOf t pid d.1 dhtml vs ev h
    have h5 : (ds'.foldl (districtStep (logServer page0 pageOf) pid dhtml) X).1 =
        X.1 ++ ds'.map (fun d => neighborhoodFormData vs ev pid d.1) :=
      ih X.1 X.2.1 X.2.2
    rw [h5, hx1]
    simp

/-- Claim C8: within one province, `scrape` makes a single district POST,
keeps its response as the district page for the whole province, and every
district's neighborhood submission carries the state tokens extracted from
that one response — the tokens are not re-fetched per district.  Stated
for a fully general deterministic logging server: the POST log after the
province step is the province POST followed by exactly one neighborhood
form per district, all built from the same `vs`/`ev`. -/
theorem c8_province_level_tokens (page0 : Str) (pageOf : List FormData → Str)
    (t : List FormData) (ad : List Il) (vs0 ev0 : Option Str)
    (pid pname vs ev : Str)
    (h : extract_viewstate_and_validation (pageOf (t ++ [districtFormData vs0 ev0 pid])) =
      (some vs, some ev)) :
    (provinceStep (logServer page0 pageOf) (t, ad, vs0, ev0) (pid, pname)).1 =
      (t ++ [districtFormData vs0 ev0 pid]) ++
        (get_districts pid (pageOf (t ++ [districtFormData vs0 ev0 pid]))).map
          (fun d => neighborhoodFormData vs ev pid d.1) := by
  rw [provinceStep_def]
  exact districtFold_log_trace page0 pageOf pid _ vs ev h _ _ _ _

/-- Witness for C8 at a concrete one-province log run. -/
theorem c8_witness :
    (provinceStep (logServer [] (fun _ => c7pageP))
        (([] : List FormData), ([] : List Il), some ("V1".toList), some ("E1".toList))
        ("1".toList, "AA".toList)).1 =
      (([] : List FormData) ++
          [districtFormData (some ("V1".toList)) (some ("E1".toList)) ("1".toList)]) ++
        (get_districts ("1".toList) c7pageP).map
          (fun d => neighborhoodFormData ("V2".toList) ("E2".toList) ("1".toList) d.1) :=
  c8_province_level_tokens [] (fun _ => c7pageP) [] [] (some ("V1".toList))
    (some ("E1".toList)) ("1".toList) ("AA".toList) ("V2".toList) ("E2".toList)
    (by decide)

theorem matchLastUpdated_none (s : Str) (h : headingLit.isPrefixOf s = false) :
    matchLastUpdated s = none := by
  unfold matchLastUpdated
  rw [h]
  simp

theorem subGo_cons_match (fmt : Str) (f : Nat) (c : Char) (rest : Str)
    (pr : Str × Str) (h : matchLastUpdated (c :: rest) = some pr) :
    subGo fmt (f + 1) (c :: rest) = pr.1 ++ ' ' :: fmt ++ subGo fmt f pr.2 := by
  show (match matchLastUpdated (c :: rest) with
    | some pr => pr.1 ++ ' ' :: fmt ++ subGo fmt f pr.2
    | none => c :: subGo fmt f rest) = pr.1 ++ ' ' :: fmt ++ subGo fmt f pr.2
  rw [h]

theorem subGo_cons_none (fmt : Str) (f : Nat) (c : Char) (rest : Str)
    (h : matchLastUpdated (c :: rest) = none) :
    subGo fmt (f + 1) (c :: rest) = c :: subGo fmt f rest := by
  show (match matchLastUpdated (c :: rest) with
    | some pr => pr.1 ++ ' ' :: fmt ++ subGo fmt f pr.2
    | none => c :: subGo fmt f rest) = c :: subGo fmt f rest
  rw [h]

/-- A text in which the heading literal never starts is left unchanged by
the substitution scan. -/
theorem subGo_no_occurrence (fmt : Str) :
    ∀ (fuel : Nat) (s : Str), s.length ≤ fuel →
      (∀ i < s.length, headingLit.isPrefixOf (s.drop i) = false) →
      subGo fmt fuel s = s := by
  intro fuel
  induction fuel with
  | zero => intro s _ _; cases s <;> rfl
  | succ f ih =>
    intro s hlen hno
    cases s with
    | nil => rfl
    | cons c rest =>
      have h0 : headingLit.isPrefixOf (c :: rest) = false := by
        have := hno 0 (by simp)
        simpa using this
      rw [subGo_cons_none fmt f c rest (matchLastUpdated_none _ h0)]
      rw [ih rest (by simp only [List.length_cons] at hlen; omega) (fun i hi => by
        have := hno (i + 1) (by simp only [List.length_cons]; omega)
        simpa [List.drop_succ_cons] using this)]

/-- The substitution scan copies a match-free prefix verbatim. -/
theorem subGo_append_no_occurrence (fmt : Str) :
    ∀ (a : Str) (fuel : Nat) (tl : Str),
      (∀ i < a.length, headingLit.isPrefixOf ((a ++ tl).drop i) = false) →
      subGo fmt (a.length + fuel) (a ++ tl) = a ++ subGo fmt fuel tl := by
  intro a
  induction a with
  | nil => intro fuel tl _; simp
  | cons x a' ih =>
    intro fuel tl hno
    have h0 : headingLit.isPrefixOf (x :: (a' ++ tl)) = false := by
      have := hno 0 (by simp)
      simpa using this
    rw [show (x :: a').length + fuel = (a'.length + fuel) + 1 by
      simp only [List.length_cons]; omega]
    rw [show (x :: a') ++ tl = x :: (a' ++ tl) from rfl]
    rw [subGo_cons_none fmt (a'.length + fuel) x (a' ++ tl) (matchLastUpdated_none _ h0)]
    rw [ih fuel tl (fun i hi => by
      have := hno (i + 1) (by simp only [List.length_cons]; omega)
      simpa [List.drop_succ_cons] using this)]
    rw [List.cons_append]

theorem takeWhile_all (p : Char → Bool) (l : Str) (h : ∀ c ∈ l, p c = true) :
    l.takeWhile p = l := List.takeWhile_eq_self_iff.mpr h

/-- The README pattern matches at the start of
`heading ++ whitespace-with-newline ++ label ++ rest-of-line ++ rest`,
capturing its first group and resuming at `rest`. -/
theorem matchLastUpdated_at_head (w d b : Str)
    (hw : ∀ c ∈ w, isSpace c = true) (hwn : '\n' ∈ w)
    (hd : d ≠ []) (hdn : '\n' ∉ d) (hb : b = [] ∨ b.head? = some '\n') :
    matchLastUpdated (headingLit ++ (w ++ (labelLit ++ (d ++ b)))) =
      some (headingLit ++ w ++ labelLit, b) := by
  have hpre : headingLit.isPrefixOf (headingLit ++ (w ++ (labelLit ++ (d ++ b)))) = true :=
    List.isPrefixOf_iff_prefix.mpr (List.prefix_append _ _)
  have e1 : (headingLit ++ (w ++ (labelLit ++ (d ++ b)))).drop headingLit.length =
      w ++ (labelLit ++ (d ++ b)) := List.drop_left _ _
  have hlab : labelLit = '*' :: ("*Son güncelleme:**".toList) := rfl
  have e2 : (w ++ (labelLit ++ (d ++ b))).takeWhile isSpace = w := by
    rw [hlab, List.cons_append]
    exact takeWhile_append_stop isSpace w '*' _ hw (by decide)
  have e3 : (w ++ (labelLit ++ (d ++ b))).drop w.length = labelLit ++ (d ++ b) :=
    List.drop_left _ _
  have e4 : labelLit.isPrefixOf (labelLit ++ (d ++ b)) = true :=
    List.isPrefixOf_iff_prefix.mpr (List.prefix_append _ _)
  have e5 : (labelLit ++ (d ++ b)).drop labelLit.length = d ++ b := List.drop_left _ _
  have e6 : (d ++ b).takeWhile (fun x => decide (x ≠ '\n')) = d := by
    rcases hb with hb | hb
    · subst hb
      rw [List.append_nil]
      exact takeWhile_all _ d (fun c hc => decide_eq_true (fun hx => hdn (hx ▸ hc)))
    · cases b with
      | nil => simp at hb
      | cons x b' =>
        simp only [List.head?_cons, Option.some.injEq] at hb
        subst hb
        exact takeWhile_append_stop _ d '\n' b'
          (fun c hc => decide_eq_true (fun hx => hdn (hx ▸ hc))) (by simp)
  have e7 : (d ++ b).drop d.length = b := List.drop_left _ _
  unfold matchLastUpdated
  simp only [e1, e2, e3, e5, e6, e7, hpre, e4, if_true]
  simp [hwn, hd]

/-- Claim C9: on a document consisting of arbitrary text `a`, the "last
updated" heading block (heading, whitespace containing a newline, label,
a nonempty rest-of-line `d`), and arbitrary following text `b`, where the
heading literal starts nowhere else, `update_readme` replaces exactly the
rest-of-line `d` by the freshly formatted timestamp and preserves `a`, the
heading block and `b` byte for byte; and when the document does not exist
it returns `none` (the step is skipped). -/
theorem c9_update_readme_frame (a w d b : Str) (day month year hour minute : Nat)
    (hw : ∀ c ∈ w, isSpace c = true) (hwn : '\n' ∈ w)
    (hd : d ≠ []) (hdn : '\n' ∉ d) (hb : b = [] ∨ b.head? = some '\n')
    (ha : ∀ i < a.length,
      headingLit.isPrefixOf
        ((a ++ (headingLit ++ (w ++ (labelLit ++ (d ++ b))))).drop i) = false)
    (hb2 : ∀ i < b.length, headingLit.isPrefixOf (b.drop i) = false) :
    update_readme true (a ++ (headingLit ++ (w ++ (labelLit ++ (d ++ b)))))
        day month year hour minute =
      some (a ++ (headingLit ++ (w ++ (labelLit ++
        (' ' :: formatted_date day month year hour minute ++ b))))) ∧
    (∀ content : Str, update_readme false content day month year hour minute = none) := by
  constructor
  · unfold update_readme
    rw [if_pos rfl]
    unfold subLastUpdated
    rw [show (a ++ (headingLit ++ (w ++ (labelLit ++ (d ++ b))))).length =
      a.length + (headingLit ++ (w ++ (labelLit ++ (d ++ b)))).length by simp]
    rw [subGo_append_no_occurrence (formatted_date day month year hour minute) a
      (headingLit ++ (w ++ (labelLit ++ (d ++ b)))).length
      (headingLit ++ (w ++ (labelLit ++ (d ++ b)))) ha]
    set R := ("# 📅 Son Güncelleme".toList) ++ (w ++ (labelLit ++ (d ++ b))) with hR
    have hT : headingLit ++ (w ++ (labelLit ++ (d ++ b))) = '#' :: R := by
      rw [hR, show headingLit = '#' :: ("# 📅 Son Güncelleme".toList) from rfl,
        List.cons_append]
    have hm := matchLastUpdated_at_head w d b hw hwn hd hdn hb
    rw [hT] at hm
    rw [show (headingLit ++ (w ++ (labelLit ++ (d ++ b)))).length = R.length + 1 by
      rw [hT]; simp]
    rw [hT, subGo_cons_match (formatted_date day month year hour minute) R.length
      '#' R (headingLit ++ w ++ labelLit, b) hm]
    have hblen : b.length ≤ R.length := by
      rw [hR]
      simp only [List.length_append]
      omega
    rw [subGo_no_occurrence (formatted_date day month year hour minute) R.length b
      hblen hb2]
    simp [List.append_assoc]
  · intro content
    unfold update_readme
    simp

/-- Witness for C9 at a concrete document. -/
theorem c9_witness :
    update_readme true (("T\n".toList) ++ (headingLit ++ (("\n".toList) ++
        (labelLit ++ ((" old".toList) ++ ("\nZ".toList)))))) 15 1 2024 14 30 =
      some (("T\n".toList) ++ (headingLit ++ (("\n".toList) ++
        (labelLit ++ (' ' :: formatted_date 15 1 2024 14 30 ++ ("\nZ".toList)))))) :=
  (c9_update_readme_frame ("T\n".toList) ("\n".toList) (" old".toList) ("\nZ".toList)
    15 1 2024 14 30 (by decide) (by decide) (by decide) (by decide) (by decide)
    (by decide) (by decide)).1
